import Mathlib

/-!
Verification of the ZENEDGE governance/offload core against its specification.

This file gives a shallow embedding, in Lean 4, of the parts of the ZENEDGE
kernel that the checked properties talk about:

* the contract engine and admission control (`kernel/contracts.c`),
* the shared-memory command ring producer (`kernel/ipc/ipc.c`),
* the shared-heap bitmap allocator and its tensor layer (`kernel/ipc/heap.c`),
* the IFR v3 integrity records (`kernel/trace/ifr.c`) together with SHA-256.

C machine integers are modelled as `Nat` with explicit reduction `% U32`
(resp. `% U16`) at every operation where the C code can wrap.  Stateful C
functions become pure functions from an explicit state record to a
result/state pair.  Numeric parameters of the embedded functions are
understood to carry the bound of their C type (`< 2 ^ 32` for `uint32_t`
arguments); general theorems state such bounds as hypotheses where they
matter.
-/

namespace Zenedge

/-- Modulus of `uint32_t` arithmetic. -/
def U32 : Nat := 4294967296

/-- Modulus of `uint16_t` arithmetic. -/
def U16 : Nat := 65536

/- ==================================================================
   Contract engine (kernel/contracts.c, kernel/contracts.h)
   ================================================================== -/

/-- Contract enforcement states (`contract_state_t` in contracts.h). -/
inductive contract_state_t where
  | OK
  | WARNED
  | SAFE_MODE
deriving DecidableEq

/-- Task contract (`task_contract_t` in contracts.h).  `prio` is the numeric
value of `contract_priority_t` (3 = REALTIME); accel_slots and tier_hint are
not consulted by any embedded operation and are omitted. -/
structure task_contract_t where
  cpu_budget_us : Nat
  memory_kb : Nat
  prio : Nat
  preferred_node : Nat
  cpu_used_us : Nat
  mem_used_kb : Nat
  cpu_violations : Nat
  mem_violations : Nat
  state : contract_state_t
  job_id : Nat
deriving DecidableEq

/-- `contract_set_state` (contracts.c): record the new state.  The console
and flight-recorder logging performed there does not affect the contract. -/
def contract_set_state (c : task_contract_t) (new_state : contract_state_t) :
    task_contract_t :=
  { c with state := new_state }

/-- `contract_charge_cpu` (contracts.c).  Returns the C `int` result
(1 = violation, 0 = within budget) and the updated contract. -/
def contract_charge_cpu (c : task_contract_t) (usec : Nat) :
    Nat × task_contract_t :=
  let c1 := { c with cpu_used_us := (c.cpu_used_us + usec) % U32 }
  if c1.cpu_budget_us < c1.cpu_used_us then
    let c2 := { c1 with cpu_violations := (c1.cpu_violations + 1) % U32 }
    let c3 :=
      if c2.state = contract_state_t.OK then
        contract_set_state c2 contract_state_t.WARNED
      else if c2.state = contract_state_t.WARNED ∧ 3 ≤ c2.cpu_violations then
        contract_set_state c2 contract_state_t.SAFE_MODE
      else c2
    (1, c3)
  else
    (0, c1)

/-- `contract_charge_memory` (contracts.c). -/
def contract_charge_memory (c : task_contract_t) (kb : Nat) :
    Nat × task_contract_t :=
  let c1 := { c with mem_used_kb := (c.mem_used_kb + kb) % U32 }
  if c1.memory_kb < c1.mem_used_kb then
    let c2 := { c1 with mem_violations := (c1.mem_violations + 1) % U32 }
    let c3 :=
      if c2.state = contract_state_t.OK then
        contract_set_state c2 contract_state_t.WARNED
      else if c2.state = contract_state_t.WARNED ∧ 2 ≤ c2.mem_violations then
        contract_set_state c2 contract_state_t.SAFE_MODE
      else c2
    (1, c3)
  else
    (0, c1)

/-- Result of the external page allocator `zenedge_alloc_page`
(zenedge_alloc.h), supplied to the embedding as an oracle. -/
structure zalloc_result_t where
  addr : Nat
  node : Nat
deriving DecidableEq

/-- `contract_alloc_page` (contracts.c).  `PAGE_SIZE / 1024 = 4`.  The
external allocator is passed in as `zalloc` (node preference ↦ result).
Returns the physical address (0 = denied/failed) and the updated contract. -/
def contract_alloc_page (zalloc : Nat → zalloc_result_t)
    (c : task_contract_t) : Nat × task_contract_t :=
  if c.state = contract_state_t.SAFE_MODE then
    (0, c)
  else
    let page_kb := 4
    if c.memory_kb < (c.mem_used_kb + page_kb) % U32 then
      let c2 := { c with mem_violations := (c.mem_violations + 1) % U32 }
      let c3 :=
        if c2.state = contract_state_t.OK then
          contract_set_state c2 contract_state_t.WARNED
        else if c2.state = contract_state_t.WARNED ∧ 2 ≤ c2.mem_violations then
          contract_set_state c2 contract_state_t.SAFE_MODE
        else c2
      (0, c3)
    else
      let node_pref :=
        if c.preferred_node = 0 then 0
        else if c.preferred_node = 1 then 1
        else 255
      let r := zalloc node_pref
      let c4 :=
        if r.addr ≠ 0 then
          { c with mem_used_kb := (c.mem_used_kb + page_kb) % U32 }
        else c
      (r.addr, c4)

/-- `contract_free_page` (contracts.c).  The call into the external
allocator only frees the frame; the contract update is the credit below. -/
def contract_free_page (c : task_contract_t) (addr : Nat) : task_contract_t :=
  if addr = 0 then c
  else if 4 ≤ c.mem_used_kb then { c with mem_used_kb := c.mem_used_kb - 4 }
  else c

/-- One call into the contract engine, with the reply of the external page
allocator recorded in the `alloc_page` constructor. -/
inductive contract_op where
  | charge_cpu (usec : Nat)
  | charge_memory (kb : Nat)
  | alloc_page (r : zalloc_result_t)
  | free_page (addr : Nat)
deriving DecidableEq

/-- Apply one contract-engine operation to a contract. -/
def contract_step (c : task_contract_t) (op : contract_op) : task_contract_t :=
  match op with
  | contract_op.charge_cpu u => (contract_charge_cpu c u).2
  | contract_op.charge_memory k => (contract_charge_memory c k).2
  | contract_op.alloc_page r => (contract_alloc_page (fun _ => r) c).2
  | contract_op.free_page a => contract_free_page c a

/-- Run a sequence of contract-engine operations. -/
def contract_run (c : task_contract_t) (ops : List contract_op) :
    task_contract_t :=
  ops.foldl contract_step c

/-- The addresses returned by the `contract_alloc_page` calls of a run, in
order. -/
def contract_alloc_results (c : task_contract_t) :
    List contract_op → List Nat
  | [] => []
  | op :: rest =>
    let here :=
      match op with
      | contract_op.alloc_page r => [(contract_alloc_page (fun _ => r) c).1]
      | _ => []
    here ++ contract_alloc_results (contract_step c op) rest

theorem contract_step_safe_mode (c : task_contract_t) (op : contract_op)
    (h : c.state = contract_state_t.SAFE_MODE) :
    (contract_step c op).state = contract_state_t.SAFE_MODE := by
  cases op with
  | charge_cpu u =>
    simp only [contract_step, contract_charge_cpu, contract_set_state]
    split
    · split
      · simp_all
      · split
        · simp_all
        · simpa using h
    · simpa using h
  | charge_memory k =>
    simp only [contract_step, contract_charge_memory, contract_set_state]
    split
    · split
      · simp_all
      · split
        · simp_all
        · simpa using h
    · simpa using h
  | alloc_page r =>
    simp only [contract_step, contract_alloc_page]
    rw [if_pos h]
    exact h
  | free_page a =>
    simp only [contract_step, contract_free_page]
    split
    · exact h
    · split
      · simpa using h
      · exact h

/-- C1: once a contract is in SAFE_MODE, every subsequent
`contract_alloc_page` returns 0, and no sequence of contract-engine
operations (`contract_charge_cpu`, `contract_charge_memory`,
`contract_alloc_page`, `contract_free_page`) ever moves the state out of
SAFE_MODE. -/
theorem contract_safe_mode_absorbing (c : task_contract_t)
    (h : c.state = contract_state_t.SAFE_MODE) (ops : List contract_op) :
    (contract_run c ops).state = contract_state_t.SAFE_MODE ∧
    ∀ x ∈ contract_alloc_results c ops, x = 0 := by
  induction ops generalizing c with
  | nil =>
    exact ⟨h, by intro x hx; simp [contract_alloc_results] at hx⟩
  | cons op rest ih =>
    have hstep := contract_step_safe_mode c op h
    have hrest := ih (contract_step c op) hstep
    refine ⟨hrest.1, ?_⟩
    intro x hx
    simp only [contract_alloc_results, List.mem_append] at hx
    rcases hx with hx | hx
    · cases op with
      | alloc_page r =>
        simp only [List.mem_singleton] at hx
        subst hx
        simp [contract_alloc_page, h]
      | charge_cpu u => simp at hx
      | charge_memory k => simp at hx
      | free_page a => simp at hx
    · exact hrest.2 x hx

/-- Contract used by the spec's escalation scenario: cpu_budget_us = 1000,
state OK, all runtime counters zero. -/
def c2_scenario : task_contract_t :=
  ⟨1000, 65536, 1, 1, 0, 0, 0, 0, contract_state_t.OK, 1⟩

/-- Iterate `contract_charge_cpu` with a charge of 2000 µs. -/
def charge_cpu_2000_n (c : task_contract_t) : Nat → task_contract_t
  | 0 => c
  | n + 1 => (contract_charge_cpu (charge_cpu_2000_n c n) 2000).2

/-- C2: the state machine moves OK → WARNED on the first budget overrun (CPU
or memory) and WARNED → SAFE_MODE once the just-incremented cpu_violations
reaches 3 (resp. mem_violations reaches 2); concretely, with
cpu_budget_us = 1000 and successive 2000 µs CPU charges the state is WARNED
after the first call and SAFE_MODE after the third. -/
theorem contract_state_escalation :
    (∀ c u, c.state = contract_state_t.OK → (contract_charge_cpu c u).1 = 1 →
       (contract_charge_cpu c u).2.state = contract_state_t.WARNED) ∧
    (∀ c k, c.state = contract_state_t.OK → (contract_charge_memory c k).1 = 1 →
       (contract_charge_memory c k).2.state = contract_state_t.WARNED) ∧
    (∀ c u, c.state = contract_state_t.WARNED → (contract_charge_cpu c u).1 = 1 →
       3 ≤ (c.cpu_violations + 1) % U32 →
       (contract_charge_cpu c u).2.state = contract_state_t.SAFE_MODE) ∧
    (∀ c k, c.state = contract_state_t.WARNED → (contract_charge_memory c k).1 = 1 →
       2 ≤ (c.mem_violations + 1) % U32 →
       (contract_charge_memory c k).2.state = contract_state_t.SAFE_MODE) ∧
    (charge_cpu_2000_n c2_scenario 1).state = contract_state_t.WARNED ∧
    (charge_cpu_2000_n c2_scenario 3).state = contract_state_t.SAFE_MODE := by
  refine ⟨?_, ?_, ?_, ?_, by decide, by decide⟩
  · intro c u hOK hv
    by_cases hb : c.cpu_budget_us < (c.cpu_used_us + u) % U32
    · simp [contract_charge_cpu, contract_set_state, hb, hOK]
    · simp [contract_charge_cpu, hb] at hv
  · intro c k hOK hv
    by_cases hb : c.memory_kb < (c.mem_used_kb + k) % U32
    · simp [contract_charge_memory, contract_set_state, hb, hOK]
    · simp [contract_charge_memory, hb] at hv
  · intro c u hW hv hcnt
    by_cases hb : c.cpu_budget_us < (c.cpu_used_us + u) % U32
    · simp only [contract_charge_cpu, contract_set_state, hb, if_true]
      rw [if_neg (by simp [hW]), if_pos ⟨by simp [hW], by simpa using hcnt⟩]
    · simp [contract_charge_cpu, hb] at hv
  · intro c k hW hv hcnt
    by_cases hb : c.memory_kb < (c.mem_used_kb + k) % U32
    · simp only [contract_charge_memory, contract_set_state, hb, if_true]
      rw [if_neg (by simp [hW]), if_pos ⟨by simp [hW], by simpa using hcnt⟩]
    · simp [contract_charge_memory, hb] at hv

/-- Witness for C2: the OK → WARNED clause applied to the scenario contract
with a 2000 µs charge. -/
theorem contract_state_escalation_witness :
    (contract_charge_cpu c2_scenario 2000).2.state = contract_state_t.WARNED :=
  contract_state_escalation.1 c2_scenario 2000 rfl (by decide)

/-- Witness for C1: a concrete SAFE_MODE contract run through an allocation,
both charges and a free stays in SAFE_MODE and the allocation returned 0. -/
theorem contract_safe_mode_absorbing_witness :
    (contract_run
        ⟨1000, 64, 0, 1, 0, 0, 3, 0, contract_state_t.SAFE_MODE, 7⟩
        [contract_op.alloc_page ⟨4096, 0⟩, contract_op.charge_cpu 2000,
         contract_op.charge_memory 8, contract_op.free_page 4096]).state =
      contract_state_t.SAFE_MODE ∧
    ∀ x ∈ contract_alloc_results
        ⟨1000, 64, 0, 1, 0, 0, 3, 0, contract_state_t.SAFE_MODE, 7⟩
        [contract_op.alloc_page ⟨4096, 0⟩, contract_op.charge_cpu 2000,
         contract_op.charge_memory 8, contract_op.free_page 4096], x = 0 :=
  contract_safe_mode_absorbing _ rfl _

/- ==================================================================
   Job graph (kernel/job/job_graph.c, job_graph.h) and admission control
   (kernel/contracts.c)
   ================================================================== -/

/-- Step types (`step_type_t` in job_graph.h). -/
inductive step_type_t where
  | compute
  | collective
  | io
  | control
deriving DecidableEq

/-- One step of a job DAG (`job_step_t`); only the fields consulted by the
embedded operations are kept. -/
structure job_step_t where
  id : Nat
  ty : step_type_t
  deps : List Nat
  ready : Bool
  completed : Bool
deriving DecidableEq

/-- Job graph (`job_graph_t`); `steps` in array order, `num_steps` is its
length, and the memory metrics are as computed by
`job_graph_compute_memory`. -/
structure job_graph_t where
  id : Nat
  steps : List job_step_t
  total_memory_kb : Nat
  peak_memory_kb : Nat
  pinned_memory_kb : Nat
deriving DecidableEq

/-- `job_graph_next_ready` (job_graph.c): scan the steps array in order and
return the id of the first step that is ready and not completed, `-1` if
none. -/
def job_graph_next_ready_scan : List job_step_t → Int
  | [] => -1
  | s :: rest =>
    if s.ready = true ∧ s.completed = false then (s.id : Int)
    else job_graph_next_ready_scan rest

/-- `job_graph_next_ready` on a job graph. -/
def job_graph_next_ready (jg : job_graph_t) : Int :=
  job_graph_next_ready_scan jg.steps

/-- Admission result codes (`admit_result_t` in contracts.h). -/
inductive admit_result_t where
  | ADMIT_OK
  | ADMIT_REJECT_MEMORY
  | ADMIT_REJECT_CPU
  | ADMIT_REJECT_PRIORITY
  | ADMIT_REJECT_NO_RESOURCES
deriving DecidableEq

/-- One `flightrec_log(type, job_id, arg, extra)` call. -/
structure trace_event_log where
  ty : Nat
  job : Nat
  arg : Nat
  extra : Nat
deriving DecidableEq

def TRACE_EVT_JOB_ADMIT : Nat := 0x06
def TRACE_EVT_JOB_REJECT : Nat := 0x07
def TRACE_EVT_CONTRACT_BUDGET_WARN : Nat := 0x11

/-- Per-step CPU estimate used by admission control (contracts.c, check 4). -/
def admit_step_cost : step_type_t → Nat
  | step_type_t.compute => 1000
  | step_type_t.collective => 3000
  | step_type_t.io => 2000
  | step_type_t.control => 100

/-- The `estimated_cpu_us` accumulation of `contract_admit_job` (uint32). -/
def estimated_cpu_us (jg : job_graph_t) : Nat :=
  jg.steps.foldl (fun acc s => (acc + admit_step_cost s.ty) % U32) 0

/-- `contract_admit_job` (contracts.c).  Returns the admission result and the
flight-recorder events it logs; the contract and job are read-only (the C
function takes both through `const` pointers).  `available_kb` is the
uint32 difference `c->memory_kb - c->mem_used_kb`. -/
def contract_admit_job (c : task_contract_t) (jg : job_graph_t) :
    admit_result_t × List trace_event_log :=
  if c.memory_kb < jg.peak_memory_kb then
    (admit_result_t.ADMIT_REJECT_MEMORY,
     [⟨TRACE_EVT_JOB_REJECT, jg.id, 1, jg.peak_memory_kb⟩])
  else if c.memory_kb < jg.pinned_memory_kb then
    (admit_result_t.ADMIT_REJECT_MEMORY,
     [⟨TRACE_EVT_JOB_REJECT, jg.id, 1, jg.pinned_memory_kb⟩])
  else
    let available_kb := (c.memory_kb + (U32 - c.mem_used_kb)) % U32
    if available_kb < jg.peak_memory_kb then
      (admit_result_t.ADMIT_REJECT_NO_RESOURCES,
       [⟨TRACE_EVT_JOB_REJECT, jg.id, 4, available_kb⟩])
    else
      let est := estimated_cpu_us jg
      let warn :=
        if c.cpu_budget_us < est then
          [⟨TRACE_EVT_CONTRACT_BUDGET_WARN, jg.id, 0, est⟩]
        else []
      (admit_result_t.ADMIT_OK,
       warn ++ [⟨TRACE_EVT_JOB_ADMIT, jg.id, jg.peak_memory_kb, est⟩])

/-- C7: admission control rejects MEMORY when peak or pinned memory exceeds
the contract budget, rejects NO_RESOURCES exactly when the peak exceeds the
remaining budget, and otherwise admits — an over-budget CPU estimate only
logs a BUDGET_WARN event and never rejects.  The embedding is a pure
function of `(c, jg)` alone, mirroring the `const` C signature. -/
theorem contract_admit_job_spec (c : task_contract_t) (jg : job_graph_t)
    (hused : c.mem_used_kb ≤ c.memory_kb) (hcap : c.memory_kb < U32) :
    ((c.memory_kb < jg.peak_memory_kb ∨ c.memory_kb < jg.pinned_memory_kb) →
       (contract_admit_job c jg).1 = admit_result_t.ADMIT_REJECT_MEMORY) ∧
    (jg.peak_memory_kb ≤ c.memory_kb → jg.pinned_memory_kb ≤ c.memory_kb →
       ((contract_admit_job c jg).1 = admit_result_t.ADMIT_REJECT_NO_RESOURCES ↔
         c.memory_kb - c.mem_used_kb < jg.peak_memory_kb)) ∧
    (jg.peak_memory_kb ≤ c.memory_kb → jg.pinned_memory_kb ≤ c.memory_kb →
       jg.peak_memory_kb ≤ c.memory_kb - c.mem_used_kb →
       (contract_admit_job c jg).1 = admit_result_t.ADMIT_OK ∧
       (c.cpu_budget_us < estimated_cpu_us jg →
         (⟨TRACE_EVT_CONTRACT_BUDGET_WARN, jg.id, 0, estimated_cpu_us jg⟩ :
            trace_event_log) ∈ (contract_admit_job c jg).2)) := by
  have havail : (c.memory_kb + (U32 - c.mem_used_kb)) % U32 =
      c.memory_kb - c.mem_used_kb := by
    have h1 : c.mem_used_kb < U32 := lt_of_le_of_lt hused hcap
    have h2 : c.memory_kb < U32 := hcap
    simp only [U32] at h1 h2 ⊢
    omega
  refine ⟨?_, ?_, ?_⟩
  · intro h
    rcases h with h | h
    · simp [contract_admit_job, h]
    · by_cases h1 : c.memory_kb < jg.peak_memory_kb
      · simp [contract_admit_job, h1]
      · simp [contract_admit_job, h1, h]
  · intro hpeak hpin
    simp only [contract_admit_job, if_neg (not_lt.mpr hpeak),
      if_neg (not_lt.mpr hpin), havail]
    by_cases h2 : c.memory_kb - c.mem_used_kb < jg.peak_memory_kb
    · simp [h2]
    · simp only [if_neg h2]
      constructor
      · intro h
        exact absurd h (by simp)
      · intro h
        exact absurd h h2
  · intro hpeak hpin hfit
    simp only [contract_admit_job, if_neg (not_lt.mpr hpeak),
      if_neg (not_lt.mpr hpin), havail, if_neg (not_lt.mpr hfit)]
    refine ⟨by simp, ?_⟩
    intro hest
    simp [if_pos hest]

/-- Witness for C7: a job whose peak memory exceeds the remaining budget of
a half-used contract is rejected with NO_RESOURCES. -/
theorem contract_admit_job_spec_witness :
    (contract_admit_job
        ⟨1000, 64, 1, 1, 0, 32, 0, 0, contract_state_t.OK, 1⟩
        ⟨9, [], 0, 48, 0⟩).1 = admit_result_t.ADMIT_REJECT_NO_RESOURCES :=
  ((contract_admit_job_spec
      ⟨1000, 64, 1, 1, 0, 32, 0, 0, contract_state_t.OK, 1⟩
      ⟨9, [], 0, 48, 0⟩ (by decide) (by decide)).2.1
    (by decide) (by decide)).mpr (by decide)

/-- Job graph witnessing that ready-step selection follows array order, not
ascending step id: two ready steps stored as id 5 before id 2. -/
def jg_c8 : job_graph_t :=
  ⟨3, [⟨5, step_type_t.compute, [], true, false⟩,
       ⟨2, step_type_t.compute, [], true, false⟩], 0, 0, 0⟩

/-- C8 counterexample: with ready steps stored in the order id 5, id 2,
`job_graph_next_ready` returns 5 although a ready step with the strictly
smaller id 2 exists. -/
theorem job_graph_next_ready_not_lowest_id :
    job_graph_next_ready jg_c8 = 5 ∧
    ∃ s ∈ jg_c8.steps, s.ready = true ∧ s.completed = false ∧ s.id < 5 := by
  decide

/-- C8 amended: in every executor iteration the selected step is the first
ready-and-not-completed step in steps-array order (which equals the
lowest-id ready step only when the array is sorted by id); ties between
equal ids are broken by earlier array position. -/
theorem job_graph_next_ready_first_in_array_order (jg : job_graph_t) :
    job_graph_next_ready jg =
      match jg.steps.find? (fun s => s.ready && !s.completed) with
      | some s => (s.id : Int)
      | none => -1 := by
  show job_graph_next_ready_scan jg.steps = _
  induction jg.steps with
  | nil => rfl
  | cons s rest ih =>
    by_cases hr : s.ready = true
    · by_cases hc : s.completed = false
      · have hb : (s.ready && !s.completed) = true := by simp [hr, hc]
        simp [job_graph_next_ready_scan, List.find?, hb, hr, hc]
      · have hc' : s.completed = true := by simpa using hc
        have hb : (s.ready && !s.completed) = false := by simp [hc']
        simp [job_graph_next_ready_scan, List.find?, hb, hc', ih]
    · have hr' : s.ready = false := by simpa using hr
      have hb : (s.ready && !s.completed) = false := by simp [hr']
      simp [job_graph_next_ready_scan, List.find?, hb, hr', ih]

/- ==================================================================
   Per-step budget check of the job executor (kernel/sched/sched_core.c,
   sched_run_job lines 161-181)
   ================================================================== -/

/-- Which budget event `sched_run_job` logs after a step. -/
inductive budget_log_t where
  | exceed
  | warn
  | nolog
deriving DecidableEq

/-- `per_step_budget = ctx->contract.cpu_budget_us / ctx->job->num_steps`. -/
def sched_per_step_budget (cpu_budget_us num_steps : Nat) : Nat :=
  cpu_budget_us / num_steps

/-- The post-step budget comparison of `sched_run_job`: EXCEED when the
duration is strictly above the per-step budget, else WARN when strictly
above `(per_step_budget * 80) / 100`, else nothing. -/
def sched_step_budget_check (step_duration per_step_budget : Nat) :
    budget_log_t :=
  if per_step_budget < step_duration then budget_log_t.exceed
  else if (per_step_budget * 80) / 100 < step_duration then budget_log_t.warn
  else budget_log_t.nolog

/-- C9: with `per_step_budget = cpu_budget_us / num_steps`, a step lasting
exactly the budget does not log EXCEED, one microsecond more does, and a
duration strictly above 80 % of the budget but not above the budget logs
WARN. -/
theorem sched_step_budget_boundaries (cpu_budget_us num_steps d : Nat) :
    sched_step_budget_check (sched_per_step_budget cpu_budget_us num_steps)
        (sched_per_step_budget cpu_budget_us num_steps) ≠ budget_log_t.exceed ∧
    sched_step_budget_check (sched_per_step_budget cpu_budget_us num_steps + 1)
        (sched_per_step_budget cpu_budget_us num_steps) = budget_log_t.exceed ∧
    (4 * sched_per_step_budget cpu_budget_us num_steps < 5 * d →
      d ≤ sched_per_step_budget cpu_budget_us num_steps →
      sched_step_budget_check d (sched_per_step_budget cpu_budget_us num_steps) =
        budget_log_t.warn) := by
  set b := sched_per_step_budget cpu_budget_us num_steps with hb
  refine ⟨?_, ?_, ?_⟩
  · simp only [sched_step_budget_check]
    rw [if_neg (lt_irrefl b)]
    split <;> simp
  · simp [sched_step_budget_check]
  · intro h80 hle
    have h1 : (b * 80) / 100 < d := by omega
    simp [sched_step_budget_check, not_lt.mpr hle, h1]

/-- Witness for C9: per-step budget 1000 µs (4000 µs over 4 steps), a 900 µs
step logs WARN. -/
theorem sched_step_budget_boundaries_witness :
    sched_step_budget_check 900 (sched_per_step_budget 4000 4) =
      budget_log_t.warn :=
  (sched_step_budget_boundaries 4000 4 900).2.2 (by decide) (by decide)

/- ==================================================================
   Command-ring producer (kernel/ipc/ipc.c, ipc_proto.h)
   ================================================================== -/

/-- Command packet (`ipc_packet_t` in ipc_proto.h). -/
structure ipc_packet_t where
  cmd : Nat
  flags : Nat
  payload_id : Nat
  timestamp : Nat
deriving DecidableEq

/-- State of the command ring together with the command half of the doorbell
block, as touched by `ipc_send_flags`/`ring_cmd_doorbell` (ipc.c).  `data`
maps slot index to packet. -/
structure ipc_cmd_ring_state where
  magic : Nat
  head : Nat
  tail : Nat
  size : Nat
  data : Nat → ipc_packet_t
  cmd_doorbell : Nat
  cmd_flags : Nat
  cmd_irq_count : Nat
  cmd_writes : Nat

def IPC_MAGIC : Nat := 0x51DECA9E

def IPC_RING_SIZE : Nat := 1024

/-- `ipc_send_flags` (ipc.c): fail with -1 (RING_FULL) when the ring is
full, otherwise write the packet at `head`, publish the new head and ring
the command doorbell.  `now` is the value of `time_usec()`.  The embedding
assumes an initialized ring (the C `!cmd_ring` null check cannot fire). -/
def ipc_send_flags (st : ipc_cmd_ring_state) (cmd payload flags now : Nat) :
    Int × ipc_cmd_ring_state :=
  let head := st.head
  let next_head := (head + 1) % st.size
  if next_head = st.tail then
    (-1, st)
  else
    let st1 := { st with
      data := fun i => if i = head then ⟨cmd, flags, payload, now⟩ else st.data i }
    let st2 := { st1 with head := next_head }
    let st3 := { st2 with
      cmd_doorbell := next_head, cmd_writes := (st2.cmd_writes + 1) % U32 }
    let st4 :=
      if st3.cmd_flags % 2 = 1 then
        { st3 with cmd_flags := st3.cmd_flags ||| 2,
                   cmd_irq_count := (st3.cmd_irq_count + 1) % U32 }
      else st3
    (0, st4)

/-- `ipc_send` (ipc.c) forwards to `ipc_send_flags` with flags 0. -/
def ipc_send (st : ipc_cmd_ring_state) (cmd payload now : Nat) :
    Int × ipc_cmd_ring_state :=
  ipc_send_flags st cmd payload 0 now

/-- Command-ring state right after `ipc_init` (ipc.c): zero indices, size
1024, fresh doorbell with command IRQs disabled.  The slot contents of the
fresh shared-memory region are modelled as zero packets. -/
def ipc_cmd_ring_init : ipc_cmd_ring_state :=
  ⟨IPC_MAGIC, 0, 0, IPC_RING_SIZE, fun _ => ⟨0, 0, 0, 0⟩, 0, 0, 0, 0⟩

/-- The ring after `k` back-to-back `ipc_send_flags` calls (CMD_PING,
payload 0) with no intervening consumption. -/
def ipc_sendN : Nat → ipc_cmd_ring_state
  | 0 => ipc_cmd_ring_init
  | k + 1 => (ipc_send_flags (ipc_sendN k) 1 0 0 0).2

theorem ipc_sendN_head (k : Nat) (hk : k ≤ 1023) :
    (ipc_sendN k).head = k ∧ (ipc_sendN k).tail = 0 ∧
    (ipc_sendN k).size = 1024 := by
  induction k with
  | zero => exact ⟨rfl, rfl, rfl⟩
  | succ n ih =>
    obtain ⟨hh, ht, hs⟩ := ih (by omega)
    have hne : (((ipc_sendN n).head + 1) % (ipc_sendN n).size ≠
        (ipc_sendN n).tail) := by
      rw [hh, ht, hs]
      have : (n + 1) % 1024 = n + 1 := Nat.mod_eq_of_lt (by omega)
      omega
    refine ⟨?_, ?_, ?_⟩ <;>
      simp only [ipc_sendN, ipc_send_flags, if_neg hne] <;>
      split <;>
      simp [hh, ht, hs, Nat.mod_eq_of_lt (show n + 1 < 1024 by omega)]

/-- C6: `ipc_send_flags` on a full command ring returns -1 (RING_FULL) and
leaves the whole ring state — head, tail, every slot, and the doorbell —
untouched; and from an empty 1024-slot ring with no consumption, each of the
first 1023 sends succeeds while the 1024th returns RING_FULL. -/
theorem ipc_send_ring_full_spec :
    (∀ st cmd payload flags now, (st.head + 1) % st.size = st.tail →
       ipc_send_flags st cmd payload flags now = (-1, st)) ∧
    (∀ k, k < 1023 → (ipc_send_flags (ipc_sendN k) 1 0 0 0).1 = 0) ∧
    (ipc_send_flags (ipc_sendN 1023) 1 0 0 0).1 = -1 := by
  refine ⟨?_, ?_, ?_⟩
  · intro st cmd payload flags now h
    simp [ipc_send_flags, h]
  · intro k hk
    obtain ⟨hh, ht, hs⟩ := ipc_sendN_head k (by omega)
    have hne : (((ipc_sendN k).head + 1) % (ipc_sendN k).size ≠
        (ipc_sendN k).tail) := by
      rw [hh, ht, hs]
      have : (k + 1) % 1024 = k + 1 := Nat.mod_eq_of_lt (by omega)
      omega
    simp only [ipc_send_flags, if_neg hne]
  · obtain ⟨hh, ht, hs⟩ := ipc_sendN_head 1023 (by omega)
    have heq : (((ipc_sendN 1023).head + 1) % (ipc_sendN 1023).size =
        (ipc_sendN 1023).tail) := by
      rw [hh, ht, hs]
    simp [ipc_send_flags, heq]

/-- Witness for C6: a concrete full ring (head 3, tail 4, size 1024) rejects
a send unchanged, and the very first send on the fresh ring succeeds. -/
theorem ipc_send_ring_full_spec_witness :
    ipc_send_flags ⟨IPC_MAGIC, 3, 4, 1024, fun _ => ⟨0, 0, 0, 0⟩, 0, 0, 0, 0⟩
        16 9 0 5 =
      (-1, ⟨IPC_MAGIC, 3, 4, 1024, fun _ => ⟨0, 0, 0, 0⟩, 0, 0, 0, 0⟩) ∧
    (ipc_send_flags (ipc_sendN 0) 1 0 0 0).1 = 0 :=
  ⟨ipc_send_ring_full_spec.1 _ 16 9 0 5 (by decide),
   ipc_send_ring_full_spec.2.1 0 (by decide)⟩

/- ==================================================================
   Shared heap (kernel/ipc/heap.c, ipc_proto.h)
   ================================================================== -/

def IPC_HEAP_MAGIC : Nat := 0x48454150

def BLOB_MAGIC : Nat := 0x424C4F42

def IPC_HEAP_DATA_SIZE : Nat := 0xEF000

def HEAP_BLOCK_SIZE : Nat := 64

/-- `IPC_HEAP_DATA_SIZE / HEAP_BLOCK_SIZE = 15296`. -/
def HEAP_MAX_BLOCKS : Nat := IPC_HEAP_DATA_SIZE / HEAP_BLOCK_SIZE

def MAX_BLOBS : Nat := 256

def BLOB_TYPE_TENSOR : Nat := 1

/-- Blob-table entry (the static `blob_table` of heap.c). -/
structure heap_entry_t where
  blob_id : Nat
  offset : Nat
  blocks : Nat
deriving DecidableEq

/-- Blob header (`heap_blob_t` in ipc_proto.h, 32 bytes). -/
structure heap_blob_t where
  magic : Nat
  blob_id : Nat
  ty : Nat
  flags : Nat
  size : Nat
  offset : Nat
  checksum : Nat
deriving DecidableEq

/-- Tensor header (`tensor_header_t` in ipc_proto.h, 36 bytes); `shape` and
`strides` have four entries. -/
structure tensor_header_t where
  dtype : Nat
  ndim : Nat
  shape : List Nat
  strides : List Nat
deriving DecidableEq

/-- Heap state: the control block (`heap_ctl_t`), the static blob table,
and the contents of the heap data area.  The data area is modelled at the
granularity the code reads it: `blobs` records the blob header written at
each data-area offset (later writes shadow earlier ones), `tensors` the
tensor header written at each data offset.  Offsets with no recorded header
read as non-BLOB garbage. -/
structure heap_state_t where
  magic : Nat
  version : Nat
  total_blocks : Nat
  free_blocks : Nat
  next_blob_id : Nat
  bitmap : Nat → Bool
  blob_table : List heap_entry_t
  blobs : List (Nat × heap_blob_t)
  tensors : List (Nat × tensor_header_t)

/-- `bitmap_set` (heap.c): set one bit, out-of-range is a no-op. -/
def bitmap_set_bit (bm : Nat → Bool) (block : Nat) : Nat → Bool :=
  if block < HEAP_MAX_BLOCKS then fun x => if x = block then true else bm x
  else bm

/-- `bitmap_clear` (heap.c): clear one bit, out-of-range is a no-op. -/
def bitmap_clear_bit (bm : Nat → Bool) (block : Nat) : Nat → Bool :=
  if block < HEAP_MAX_BLOCKS then fun x => if x = block then false else bm x
  else bm

/-- The `for (i = 0; i < blocks; i++) bitmap_set(start + i)` loop. -/
def set_blocks (bm : Nat → Bool) (start : Nat) : Nat → (Nat → Bool)
  | 0 => bm
  | n + 1 => bitmap_set_bit (set_blocks bm start n) (start + n)

/-- The corresponding clear loop of `heap_free`. -/
def clear_blocks (bm : Nat → Bool) (start : Nat) : Nat → (Nat → Bool)
  | 0 => bm
  | n + 1 => bitmap_clear_bit (clear_blocks bm start n) (start + n)

/-- The scan loop of `find_free_blocks` (heap.c).  `fuel` counts the
remaining loop iterations (`HEAP_MAX_BLOCKS - i` at entry), `i` the current
block, `start`/`run` the current run of free blocks. -/
def find_free_scan (bm : Nat → Bool) (count : Nat) :
    Nat → Nat → Nat → Nat → Option Nat
  | 0, _, _, _ => none
  | fuel + 1, i, start, run =>
    if i < HEAP_MAX_BLOCKS then
      if bm i = false then
        let start' := if run = 0 then i else start
        if count ≤ run + 1 then some start'
        else find_free_scan bm count fuel (i + 1) start' (run + 1)
      else find_free_scan bm count fuel (i + 1) start 0
    else none

/-- `find_free_blocks` (heap.c): first-fit left-to-right scan for a
contiguous free run; `none` models the `(uint32_t)-1` failure. -/
def find_free_blocks (bm : Nat → Bool) (count : Nat) : Option Nat :=
  find_free_scan bm count HEAP_MAX_BLOCKS 0 0 0

/-- `heap_alloc` (heap.c).  `sizeof(heap_blob_t) = 32`; all uint32
arithmetic wraps.  Returns the blob id (0 on failure) and the new state. -/
def heap_alloc (size ty : Nat) (s : heap_state_t) : Nat × heap_state_t :=
  if s.magic ≠ IPC_HEAP_MAGIC then (0, s)
  else
    let total_size := (size + 32) % U32
    let blocks := ((total_size + (HEAP_BLOCK_SIZE - 1)) % U32) / HEAP_BLOCK_SIZE
    match find_free_blocks s.bitmap blocks with
    | none => (0, s)
    | some start =>
      let bm := set_blocks s.bitmap start blocks
      let fb := (s.free_blocks + (U32 - blocks)) % U32
      let blob_id := s.next_blob_id % U16
      let next1 := (s.next_blob_id + 1) % U32
      let next2 := if next1 = 0 then 1 else next1
      let offset := start * HEAP_BLOCK_SIZE
      let table :=
        if s.blob_table.length < MAX_BLOBS then
          s.blob_table ++ [⟨blob_id, offset, blocks⟩]
        else s.blob_table
      let hdr : heap_blob_t := ⟨BLOB_MAGIC, blob_id, ty, 0, size, offset + 32, 0⟩
      (blob_id,
       { s with bitmap := bm, free_blocks := fb, next_blob_id := next2,
                blob_table := table, blobs := (offset, hdr) :: s.blobs })

/-- The linear search of `heap_free` over the blob table: index and entry of
the first match. -/
def find_entry (blob_id : Nat) : List heap_entry_t → Option (Nat × heap_entry_t)
  | [] => none
  | e :: rest =>
    if e.blob_id = blob_id then some (0, e)
    else (find_entry blob_id rest).map fun p => (p.1 + 1, p.2)

/-- The swap-with-last removal of `heap_free`. -/
def remove_swap_last (l : List heap_entry_t) (i : Nat) : List heap_entry_t :=
  (l.set i (l.getLastD ⟨0, 0, 0⟩)).dropLast

/-- `heap_free` (heap.c): look the id up in the blob table, clear its
blocks, credit `free_blocks`, and remove the entry; misses are silent
no-ops. -/
def heap_free (blob_id : Nat) (s : heap_state_t) : heap_state_t :=
  if blob_id = 0 then s
  else
    match find_entry blob_id s.blob_table with
    | none => s
    | some (i, e) =>
      let start := e.offset / HEAP_BLOCK_SIZE
      { s with bitmap := clear_blocks s.bitmap start e.blocks,
               free_blocks := (s.free_blocks + e.blocks) % U32,
               blob_table := remove_swap_last s.blob_table i }

/-- Read the blob header stored at a data-area offset (the
`(heap_blob_t *)(heap_data + offset)` dereference). -/
def heap_blob_at (s : heap_state_t) (offset : Nat) : Option heap_blob_t :=
  s.blobs.lookup offset

/-- The cache loop of `heap_get_blob`: for each table entry with a matching
id, re-verify the header in memory; keep scanning on verification failure. -/
def heap_get_blob_cache (s : heap_state_t) (blob_id : Nat) :
    List heap_entry_t → Option (Nat × heap_blob_t)
  | [] => none
  | e :: rest =>
    if e.blob_id = blob_id then
      match heap_blob_at s e.offset with
      | some b =>
        if b.magic = BLOB_MAGIC ∧ b.blob_id = blob_id then some (e.offset, b)
        else heap_get_blob_cache s blob_id rest
      | none => heap_get_blob_cache s blob_id rest
    else heap_get_blob_cache s blob_id rest

/-- The slow-path heap scan of `heap_get_blob`, with its skip-ahead over
multi-block blobs; `fuel` bounds the loop (`IPC_HEAP_DATA_SIZE /
HEAP_BLOCK_SIZE` iterations suffice since each one advances the offset by at
least one block). -/
def heap_scan_for_blob (s : heap_state_t) (blob_id : Nat) :
    Nat → Nat → Option (Nat × heap_blob_t)
  | 0, _ => none
  | fuel + 1, offset =>
    if offset < IPC_HEAP_DATA_SIZE then
      match heap_blob_at s offset with
      | some b =>
        if b.magic = BLOB_MAGIC then
          if b.blob_id = blob_id then some (offset, b)
          else
            let total := (b.size + 32) % U32
            let blocks := ((total + (HEAP_BLOCK_SIZE - 1)) % U32) / HEAP_BLOCK_SIZE
            let skip := if 1 < blocks then (blocks - 1) * HEAP_BLOCK_SIZE else 0
            heap_scan_for_blob s blob_id fuel (offset + HEAP_BLOCK_SIZE + skip)
        else heap_scan_for_blob s blob_id fuel (offset + HEAP_BLOCK_SIZE)
      | none => heap_scan_for_blob s blob_id fuel (offset + HEAP_BLOCK_SIZE)
    else none

/-- `heap_get_blob` (heap.c): cache first, then heap scan; a scan hit is
inserted into the cache.  Returns the data-area offset of the header and the
header itself. -/
def heap_get_blob (blob_id : Nat) (s : heap_state_t) :
    Option (Nat × heap_blob_t) × heap_state_t :=
  if blob_id = 0 then (none, s)
  else
    match heap_get_blob_cache s blob_id s.blob_table with
    | some r => (some r, s)
    | none =>
      match heap_scan_for_blob s blob_id HEAP_MAX_BLOCKS 0 with
      | some (offset, b) =>
        let total := (b.size + 32) % U32
        let blocks := ((total + (HEAP_BLOCK_SIZE - 1)) % U32) / HEAP_BLOCK_SIZE
        let table :=
          if s.blob_table.length < MAX_BLOBS then
            s.blob_table ++ [⟨blob_id, offset, blocks⟩]
          else s.blob_table
        (some (offset, b), { s with blob_table := table })
      | none => (none, s)

/-- `heap_get_data` (heap.c): the data-area offset `blob->offset` of the
blob's payload, or `none` for a NULL pointer. -/
def heap_get_data (blob_id : Nat) (s : heap_state_t) :
    Option Nat × heap_state_t :=
  match heap_get_blob blob_id s with
  | (none, s1) => (none, s1)
  | (some (_, b), s1) => (some b.offset, s1)

/-- `heap_get_blob_size` (heap.c). -/
def heap_get_blob_size (blob_id : Nat) (s : heap_state_t) :
    Nat × heap_state_t :=
  match heap_get_blob blob_id s with
  | (none, s1) => (0, s1)
  | (some (_, b), s1) => (b.size, s1)

/-- `dtype_size` (heap.c). -/
def tensor_dtype_size (dtype : Nat) : Nat :=
  if dtype = 0 then 4
  else if dtype = 1 then 2
  else if dtype = 2 then 4
  else if dtype = 3 then 2
  else if dtype = 4 then 1
  else if dtype = 5 then 1
  else 1

/-- The `nelems` accumulation of heap.c: `uint32_t nelems = 1; nelems *=
shape[i]` over the first `ndim` dimensions, wrapping at 2^32. -/
def tensor_nelems (ndim : Nat) (shape : List Nat) : Nat :=
  (shape.take ndim).foldl (fun a d => (a * d) % U32) 1

/-- The row-major stride computation of `heap_alloc_tensor`: returns the
strides for the given dimensions (uint32 products, wrapping) and the final
running stride. -/
def tensor_strides_rec (elem : Nat) : List Nat → List Nat × Nat
  | [] => ([], elem)
  | d :: rest =>
    let p := tensor_strides_rec elem rest
    (p.2 :: p.1, (p.2 * d) % U32)

/-- `heap_alloc_tensor` (heap.c).  `sizeof(tensor_header_t) = 36`.  The
tensor data size is the wrapping uint32 product of the dimensions times the
dtype element size — there is no overflow check. -/
def heap_alloc_tensor (dtype ndim : Nat) (shape : List Nat)
    (s : heap_state_t) : Nat × heap_state_t :=
  if ndim = 0 ∨ 4 < ndim then (0, s)
  else
    let elem_size := tensor_dtype_size dtype
    let data_size := (tensor_nelems ndim shape * elem_size) % U32
    let total_size := (36 + data_size) % U32
    let r := heap_alloc total_size BLOB_TYPE_TENSOR s
    if r.1 = 0 then (0, r.2)
    else
      match heap_get_data r.1 r.2 with
      | (none, s2) => (r.1, s2)
      | (some data_off, s2) =>
        let dims := (List.range 4).map fun i =>
          if i < ndim then shape.getD i 0 else 0
        let strides0 := (tensor_strides_rec elem_size (shape.take ndim)).1
        let strides := (List.range 4).map fun i => strides0.getD i 0
        let hdr : tensor_header_t := ⟨dtype, ndim, dims, strides⟩
        (r.1, { s2 with tensors := (data_off, hdr) :: s2.tensors })

/-- `heap_get_tensor_data` (heap.c): validate magic, bounds, header size,
ndim, and that the wrapping shape product still fits the blob, then return
the offset of the tensor payload. -/
def heap_get_tensor_data (blob_id : Nat) (s : heap_state_t) :
    Option Nat × heap_state_t :=
  match heap_get_blob blob_id s with
  | (none, s1) => (none, s1)
  | (some (_, b), s1) =>
    if b.ty ≠ BLOB_TYPE_TENSOR then (none, s1)
    else if b.magic ≠ BLOB_MAGIC then (none, s1)
    else if IPC_HEAP_DATA_SIZE < (b.offset + b.size) % U32 then (none, s1)
    else
      match heap_get_data blob_id s1 with
      | (none, s2) => (none, s2)
      | (some data_off, s2) =>
        if b.size < 36 then (none, s2)
        else
          match s2.tensors.lookup data_off with
          | none => (none, s2)
          | some hdr =>
            if 4 < hdr.ndim then (none, s2)
            else
              let expected :=
                (36 + (tensor_nelems hdr.ndim hdr.shape *
                       tensor_dtype_size hdr.dtype) % U32) % U32
              if b.size < expected then (none, s2)
              else (some (data_off + 36), s2)

/-- The heap right after `heap_init` (heap.c): all 15296 blocks free, empty
bitmap, blob table and data area, ids starting at 1. -/
def heap_init_state : heap_state_t :=
  ⟨IPC_HEAP_MAGIC, 1, HEAP_MAX_BLOCKS, HEAP_MAX_BLOCKS, 1,
   fun _ => false, [], [], []⟩

theorem set_blocks_eq (bm : Nat → Bool) (start n b : Nat) :
    set_blocks bm start n b =
      if start ≤ b ∧ b < start + n ∧ b < HEAP_MAX_BLOCKS then true
      else bm b := by
  induction n with
  | zero =>
    simp only [set_blocks]
    have hcond : ¬(start ≤ b ∧ b < start + 0 ∧ b < HEAP_MAX_BLOCKS) := by omega
    rw [if_neg hcond]
  | succ m ih =>
    simp only [set_blocks, bitmap_set_bit]
    by_cases hmax : start + m < HEAP_MAX_BLOCKS
    · simp only [if_pos hmax]
      by_cases hb : b = start + m
      · have hcond : start ≤ b ∧ b < start + (m + 1) ∧ b < HEAP_MAX_BLOCKS := by
          omega
        simp only [if_pos hb, if_pos hcond]
      · simp only [if_neg hb, ih]
        by_cases hc : start ≤ b ∧ b < start + m ∧ b < HEAP_MAX_BLOCKS
        · have hcond : start ≤ b ∧ b < start + (m + 1) ∧ b < HEAP_MAX_BLOCKS := by
            omega
          simp only [if_pos hc, if_pos hcond]
        · have hcond : ¬(start ≤ b ∧ b < start + (m + 1) ∧ b < HEAP_MAX_BLOCKS) := by
            omega
          simp only [if_neg hc, if_neg hcond]
    · simp only [if_neg hmax, ih]
      by_cases hc : start ≤ b ∧ b < start + m ∧ b < HEAP_MAX_BLOCKS
      · have hcond : start ≤ b ∧ b < start + (m + 1) ∧ b < HEAP_MAX_BLOCKS := by
          omega
        simp only [if_pos hc, if_pos hcond]
      · have hcond : ¬(start ≤ b ∧ b < start + (m + 1) ∧ b < HEAP_MAX_BLOCKS) := by
          omega
        simp only [if_neg hc, if_neg hcond]

theorem clear_blocks_eq (bm : Nat → Bool) (start n b : Nat) :
    clear_blocks bm start n b =
      if start ≤ b ∧ b < start + n ∧ b < HEAP_MAX_BLOCKS then false
      else bm b := by
  induction n with
  | zero =>
    simp only [clear_blocks]
    have hcond : ¬(start ≤ b ∧ b < start + 0 ∧ b < HEAP_MAX_BLOCKS) := by omega
    rw [if_neg hcond]
  | succ m ih =>
    simp only [clear_blocks, bitmap_clear_bit]
    by_cases hmax : start + m < HEAP_MAX_BLOCKS
    · simp only [if_pos hmax]
      by_cases hb : b = start + m
      · have hcond : start ≤ b ∧ b < start + (m + 1) ∧ b < HEAP_MAX_BLOCKS := by
          omega
        simp only [if_pos hb, if_pos hcond]
      · simp only [if_neg hb, ih]
        by_cases hc : start ≤ b ∧ b < start + m ∧ b < HEAP_MAX_BLOCKS
        · have hcond : start ≤ b ∧ b < start + (m + 1) ∧ b < HEAP_MAX_BLOCKS := by
            omega
          simp only [if_pos hc, if_pos hcond]
        · have hcond : ¬(start ≤ b ∧ b < start + (m + 1) ∧ b < HEAP_MAX_BLOCKS) := by
            omega
          simp only [if_neg hc, if_neg hcond]
    · simp only [if_neg hmax, ih]
      by_cases hc : start ≤ b ∧ b < start + m ∧ b < HEAP_MAX_BLOCKS
      · have hcond : start ≤ b ∧ b < start + (m + 1) ∧ b < HEAP_MAX_BLOCKS := by
          omega
        simp only [if_pos hc, if_pos hcond]
      · have hcond : ¬(start ≤ b ∧ b < start + (m + 1) ∧ b < HEAP_MAX_BLOCKS) := by
          omega
        simp only [if_neg hc, if_neg hcond]

theorem find_free_scan_spec (bm : Nat → Bool) (count : Nat) :
    ∀ fuel i start run st,
      (run = 0 ∨ run < count) →
      (run = 0 ∨ (start + run = i ∧ ∀ j, j < run → bm (start + j) = false)) →
      find_free_scan bm count fuel i start run = some st →
      ∀ j, j < count → bm (st + j) = false := by
  intro fuel
  induction fuel with
  | zero =>
    intro i start run st _ _ h
    simp [find_free_scan] at h
  | succ f ih =>
    intro i start run st hrc hinv h j hj
    simp only [find_free_scan] at h
    by_cases hi : i < HEAP_MAX_BLOCKS
    · rw [if_pos hi] at h
      by_cases hfree : bm i = false
      · rw [if_pos hfree] at h
        by_cases hret : count ≤ run + 1
        · rw [if_pos hret] at h
          have hst : st = if run = 0 then i else start :=
            (Option.some.injEq _ _).mp h.symm
          by_cases hr0 : run = 0
          · have : st = i := by rwa [if_pos hr0] at hst
            subst this
            have : j = 0 := by omega
            subst this
            simpa using hfree
          · have hstart : st = start := by rwa [if_neg hr0] at hst
            subst hstart
            rcases hinv with h0 | ⟨hsum, hrun⟩
            · exact absurd h0 hr0
            · rcases Nat.lt_or_ge j run with hjr | hjr
              · exact hrun j hjr
              · have hjrun : j = run := by
                  rcases hrc with h0 | hlt
                  · exact absurd h0 hr0
                  · omega
                subst hjrun
                rw [hsum]
                exact hfree
        · rw [if_neg hret] at h
          refine ih (i + 1) (if run = 0 then i else start) (run + 1) st
            (Or.inr (by omega)) (Or.inr ?_) h j hj
          by_cases hr0 : run = 0
          · subst hr0
            rw [if_pos rfl]
            exact ⟨rfl, fun j hj => by
              have : j = 0 := by omega
              subst this
              simpa using hfree⟩
          · rw [if_neg hr0]
            rcases hinv with h0 | ⟨hsum, hrun⟩
            · exact absurd h0 hr0
            · refine ⟨by omega, fun j hj => ?_⟩
              rcases Nat.lt_or_ge j run with hjr | hjr
              · exact hrun j hjr
              · have : j = run := by omega
                subst this
                rw [hsum]
                exact hfree
      · rw [if_neg hfree] at h
        exact ih (i + 1) start 0 st (Or.inl rfl) (Or.inl rfl) h j hj
    · rw [if_neg hi] at h
      cases h

theorem find_free_blocks_spec (bm : Nat → Bool) (count st : Nat)
    (h : find_free_blocks bm count = some st) :
    ∀ j, j < count → bm (st + j) = false :=
  find_free_scan_spec bm count HEAP_MAX_BLOCKS 0 0 0 st
    (Or.inl rfl) (Or.inl rfl) h

theorem find_entry_append_fresh (id : Nat) (l : List heap_entry_t)
    (e : heap_entry_t) (he : e.blob_id = id)
    (hfresh : ∀ x ∈ l, x.blob_id ≠ id) :
    find_entry id (l ++ [e]) = some (l.length, e) := by
  induction l with
  | nil => simp [find_entry, he]
  | cons a rest ih =>
    have ha : a.blob_id ≠ id := hfresh a (by simp)
    have ih' := ih fun x hx => hfresh x (by simp [hx])
    simp [find_entry, ha, ih']

theorem heap_alloc_of_find (s : heap_state_t) (size ty start : Nat)
    (hm : s.magic = IPC_HEAP_MAGIC)
    (hfind : find_free_blocks s.bitmap
        (((size + 32) % U32 + (HEAP_BLOCK_SIZE - 1)) % U32 / HEAP_BLOCK_SIZE) =
      some start) :
    heap_alloc size ty s =
      (s.next_blob_id % U16,
       { s with
         bitmap := set_blocks s.bitmap start
           (((size + 32) % U32 + (HEAP_BLOCK_SIZE - 1)) % U32 / HEAP_BLOCK_SIZE),
         free_blocks := (s.free_blocks +
           (U32 - ((size + 32) % U32 + (HEAP_BLOCK_SIZE - 1)) % U32 /
             HEAP_BLOCK_SIZE)) % U32,
         next_blob_id :=
           if (s.next_blob_id + 1) % U32 = 0 then 1 else (s.next_blob_id + 1) % U32,
         blob_table :=
           if s.blob_table.length < MAX_BLOBS then
             s.blob_table ++
               [⟨s.next_blob_id % U16, start * HEAP_BLOCK_SIZE,
                 ((size + 32) % U32 + (HEAP_BLOCK_SIZE - 1)) % U32 /
                   HEAP_BLOCK_SIZE⟩]
           else s.blob_table,
         blobs := (start * HEAP_BLOCK_SIZE,
           ⟨BLOB_MAGIC, s.next_blob_id % U16, ty, 0, size,
            start * HEAP_BLOCK_SIZE + 32, 0⟩) :: s.blobs }) := by
  simp only [heap_alloc, hm, ne_eq, not_true_eq_false, if_false, hfind]

/-- C4 amended: a successful `heap_alloc`/`heap_free` round trip restores
`free_blocks` and the bitmap, provided the blob table had room for the new
blob (fewer than 256 entries) and the assigned id was not already present in
the table.  (The C4 counterexample below shows the claim fails without the
table-room proviso; an id collision after the 16-bit wrap breaks it the same
way, since `heap_free` frees the first table entry with that id.) -/
theorem heap_alloc_free_round_trip (s : heap_state_t) (size ty : Nat)
    (hfb : s.free_blocks < U32)
    (htab : s.blob_table.length < MAX_BLOBS)
    (hid : (heap_alloc size ty s).1 ≠ 0)
    (hfresh : ∀ e ∈ s.blob_table, e.blob_id ≠ (heap_alloc size ty s).1) :
    (heap_free (heap_alloc size ty s).1 (heap_alloc size ty s).2).free_blocks =
      s.free_blocks ∧
    ∀ b, (heap_free (heap_alloc size ty s).1 (heap_alloc size ty s).2).bitmap b =
      s.bitmap b := by
  by_cases hm : s.magic = IPC_HEAP_MAGIC
  case neg =>
    exfalso
    apply hid
    simp [heap_alloc, hm]
  have hex : ∃ start, find_free_blocks s.bitmap
      (((size + 32) % U32 + (HEAP_BLOCK_SIZE - 1)) % U32 / HEAP_BLOCK_SIZE) =
      some start := by
    rcases hfind : find_free_blocks s.bitmap
        (((size + 32) % U32 + (HEAP_BLOCK_SIZE - 1)) % U32 / HEAP_BLOCK_SIZE)
      with _ | start
    · exfalso
      apply hid
      simp only [heap_alloc, hm, ne_eq, not_true_eq_false, if_false, hfind]
    · exact ⟨start, rfl⟩
  obtain ⟨start, hfind⟩ := hex
  have halloc := heap_alloc_of_find s size ty start hm hfind
  rw [halloc] at hid hfresh ⊢
  set blocks :=
    ((size + 32) % U32 + (HEAP_BLOCK_SIZE - 1)) % U32 / HEAP_BLOCK_SIZE
    with hblocks
  set id0 := s.next_blob_id % U16 with hid0
  simp only at hid hfresh ⊢
  have hentry : find_entry id0
      (s.blob_table ++ [⟨id0, start * HEAP_BLOCK_SIZE, blocks⟩]) =
      some (s.blob_table.length, ⟨id0, start * HEAP_BLOCK_SIZE, blocks⟩) :=
    find_entry_append_fresh id0 s.blob_table _ rfl hfresh
  have hstart : start * HEAP_BLOCK_SIZE / HEAP_BLOCK_SIZE = start :=
    Nat.mul_div_cancel start (by decide)
  rw [if_pos htab]
  simp only [heap_free, if_neg hid, hentry, hstart]
  have hbl : blocks < U32 := by
    have h1 : ((size + 32) % U32 + (HEAP_BLOCK_SIZE - 1)) % U32 < U32 :=
      Nat.mod_lt _ (by decide)
    calc blocks ≤ ((size + 32) % U32 + (HEAP_BLOCK_SIZE - 1)) % U32 :=
          Nat.div_le_self _ _
      _ < U32 := h1
  constructor
  · show ((s.free_blocks + (U32 - blocks)) % U32 + blocks) % U32 = s.free_blocks
    simp only [U32] at hfb hbl ⊢
    omega
  · intro b
    show clear_blocks (set_blocks s.bitmap start blocks) start blocks b =
      s.bitmap b
    rw [clear_blocks_eq]
    by_cases hc : start ≤ b ∧ b < start + blocks ∧ b < HEAP_MAX_BLOCKS
    · rw [if_pos hc]
      have := find_free_blocks_spec s.bitmap blocks start hfind (b - start)
        (by omega)
      have hb' : start + (b - start) = b := by omega
      rw [hb'] at this
      exact this.symm
    · rw [if_neg hc, set_blocks_eq, if_neg hc]

set_option maxRecDepth 100000 in
/-- Witness for C4 (amended): a 100-byte allocation on the fresh heap,
freed again, restores `free_blocks` and bit 0 of the bitmap. -/
theorem heap_alloc_free_round_trip_witness :
    (heap_free (heap_alloc 100 0 heap_init_state).1
        (heap_alloc 100 0 heap_init_state).2).free_blocks =
      heap_init_state.free_blocks ∧
    (heap_free (heap_alloc 100 0 heap_init_state).1
        (heap_alloc 100 0 heap_init_state).2).bitmap 0 =
      heap_init_state.bitmap 0 :=
  (fun h => ⟨h.1, h.2 0⟩)
    (heap_alloc_free_round_trip heap_init_state 100 0 (by decide) (by decide)
      (by decide) (by decide))

/-- A reachable heap state whose blob table is full: 256 live single-block
blobs with ids 1..256 occupying blocks 0..255, ids 257 onward unassigned. -/
def heap_full_table_state : heap_state_t :=
  { magic := IPC_HEAP_MAGIC, version := 1, total_blocks := HEAP_MAX_BLOCKS,
    free_blocks := 15040, next_blob_id := 257,
    bitmap := fun b => decide (b < 256),
    blob_table := (List.range 256).map fun i => ⟨i + 1, i * 64, 1⟩,
    blobs := (List.range 256).map fun i =>
      (i * 64, ⟨BLOB_MAGIC, i + 1, 0, 0, 1, i * 64 + 32, 0⟩),
    tensors := [] }

set_option maxRecDepth 100000 in
/-- C4 counterexample: on a heap whose blob table is full, `heap_alloc`
still succeeds (id 257, blocks marked, counter decremented) but is not
recorded in the table, so the following `heap_free` of that id is a silent
no-op — `free_blocks` stays one short and the allocated block stays set. -/
theorem heap_round_trip_full_table_leaks :
    (heap_alloc 1 0 heap_full_table_state).1 = 257 ∧
    (heap_free 257 (heap_alloc 1 0 heap_full_table_state).2).free_blocks ≠
      heap_full_table_state.free_blocks ∧
    (heap_free 257 (heap_alloc 1 0 heap_full_table_state).2).bitmap 256 =
      true := by
  decide

set_option maxRecDepth 100000 in
/-- C5: after 65535 prior allocations `next_blob_id` (a uint32) reaches
0x10000; the returned id is its uint16 truncation, so the wrap guard
`next_blob_id == 0` never fires and this successful allocation (blocks
marked used, `free_blocks` decremented) returns the reserved invalid id
0. -/
theorem heap_alloc_wrap_returns_zero :
    (heap_alloc 1 0 { heap_init_state with next_blob_id := 65536 }).1 = 0 ∧
    (heap_alloc 1 0
        { heap_init_state with next_blob_id := 65536 }).2.free_blocks =
      15295 ∧
    (heap_alloc 1 0 { heap_init_state with next_blob_id := 65536 }).2.bitmap 0 =
      true := by
  decide

set_option maxRecDepth 100000 in
/-- C10: `heap_alloc_tensor` sizes the data as the wrapping uint32 product
of the dimensions times the element size, and `heap_get_tensor_data`
revalidates with the same wrapping product; for the u8 shape
[65536, 65536] (true element count 2^32) the product wraps to 0, allocation
succeeds with a 36-byte blob (header only) and validation passes, although
the mathematical tensor size is 2^32 bytes. -/
theorem heap_tensor_size_wraps :
    (heap_alloc_tensor 5 2 [65536, 65536] heap_init_state).1 = 1 ∧
    (heap_get_tensor_data 1
        (heap_alloc_tensor 5 2 [65536, 65536] heap_init_state).2).1 =
      some 68 ∧
    (heap_get_blob_size 1
        (heap_alloc_tensor 5 2 [65536, 65536] heap_init_state).2).1 = 36 ∧
    36 < 65536 * 65536 * 1 := by
  decide

/- ==================================================================
   SHA-256 and the IFR v3 integrity chain (kernel/trace/ifr.c, ifr.h,
   kernel/lib/sha256.h)
   ================================================================== -/

/-- Modelled from the spec: the repository ships only the declaration of its
SHA-256 capability (kernel/lib/sha256.h); the implementation file is not
under src/.  The spec pins the algorithm to SHA-256 (§3, §4.5, design
notes), so this is standard FIPS 180-4 SHA-256 over byte lists, words as
`Nat` reduced mod 2^32.  The round constants. -/
def sha256_k : List Nat :=
  [1116352408, 1899447441, 3049323471, 3921009573,
   961987163, 1508970993, 2453635748, 2870763221,
   3624381080, 310598401, 607225278, 1426881987,
   1925078388, 2162078206, 2614888103, 3248222580,
   3835390401, 4022224774, 264347078, 604807628,
   770255983, 1249150122, 1555081692, 1996064986,
   2554220882, 2821834349, 2952996808, 3210313671,
   3336571891, 3584528711, 113926993, 338241895,
   666307205, 773529912, 1294757372, 1396182291,
   1695183700, 1986661051, 2177026350, 2456956037,
   2730485921, 2820302411, 3259730800, 3345764771,
   3516065817, 3600352804, 4094571909, 275423344,
   430227734, 506948616, 659060556, 883997877,
   958139571, 1322822218, 1537002063, 1747873779,
   1955562222, 2024104815, 2227730452, 2361852424,
   2428436474, 2756734187, 3204031479, 3329325298]

/-- SHA-256 initial hash values (FIPS 180-4 §5.3.3). -/
def sha256_h0 : List Nat :=
  [1779033703, 3144134277, 1013904242, 2773480762,
   1359893119, 2600822924, 528734635, 1541459225]

/-- 32-bit rotate right. -/
def rotr32 (n w : Nat) : Nat := ((w >>> n) ||| (w <<< (32 - n))) % U32

def big_sigma0 (w : Nat) : Nat := rotr32 2 w ^^^ rotr32 13 w ^^^ rotr32 22 w

def big_sigma1 (w : Nat) : Nat := rotr32 6 w ^^^ rotr32 11 w ^^^ rotr32 25 w

def small_sigma0 (w : Nat) : Nat := rotr32 7 w ^^^ rotr32 18 w ^^^ (w >>> 3)

def small_sigma1 (w : Nat) : Nat := rotr32 17 w ^^^ rotr32 19 w ^^^ (w >>> 10)

def ch32 (x y z : Nat) : Nat :=
  (x &&& y) ^^^ ((x ^^^ (U32 - 1)) &&& z)

def maj32 (x y z : Nat) : Nat :=
  (x &&& y) ^^^ ((x &&& z) ^^^ (y &&& z))

/-- Big-endian byte serialization of `v` on `n` bytes. -/
def be_bytes (n v : Nat) : List Nat :=
  (List.range n).map fun i => (v >>> (8 * (n - 1 - i))) &&& 255

/-- Little-endian byte serialization of `v` on `n` bytes, as the packed
little-endian C structs lay their fields out. -/
def le_bytes (n v : Nat) : List Nat :=
  (List.range n).map fun i => (v >>> (8 * i)) &&& 255

/-- SHA-256 message padding: 0x80, zeros to 56 mod 64, 64-bit big-endian
bit length. -/
def sha256_pad (msg : List Nat) : List Nat :=
  let len := msg.length
  let z := (56 + 64 - (len + 1) % 64) % 64
  msg ++ [0x80] ++ List.replicate z 0 ++ be_bytes 8 (len * 8)

/-- Split a padded message into 64-byte chunks; the fuel (first argument)
bounds the number of chunks and makes the recursion structural. -/
def chunks64_go : Nat → List Nat → List (List Nat)
  | 0, _ => []
  | fuel + 1, l =>
    match l with
    | [] => []
    | _ :: _ => l.take 64 :: chunks64_go fuel (l.drop 64)

/-- Split a padded message into 64-byte chunks. -/
def chunks64 (l : List Nat) : List (List Nat) := chunks64_go l.length l

/-- The 16 big-endian message words of a 64-byte chunk. -/
def chunk_words (chunk : List Nat) : List Nat :=
  (List.range 16).map fun i =>
    ((chunk.getD (4 * i) 0) <<< 24 ||| (chunk.getD (4 * i + 1) 0) <<< 16 |||
     (chunk.getD (4 * i + 2) 0) <<< 8 ||| chunk.getD (4 * i + 3) 0)

/-- Extend 16 message words to the 64-entry schedule. -/
def sha256_schedule (w16 : List Nat) : List Nat :=
  (List.range 48).foldl
    (fun w j =>
      let i := 16 + j
      w ++ [(small_sigma1 (w.getD (i - 2) 0) + w.getD (i - 7) 0 +
             small_sigma0 (w.getD (i - 15) 0) + w.getD (i - 16) 0) % U32])
    w16

/-- One SHA-256 compression round on the working variables [a..h]. -/
def sha256_round (st : List Nat) (k w : Nat) : List Nat :=
  match st with
  | [a, b, c, d, e, f, g, h] =>
    let t1 := (h + big_sigma1 e + ch32 e f g + k + w) % U32
    let t2 := (big_sigma0 a + maj32 a b c) % U32
    [(t1 + t2) % U32, a, b, c, (d + t1) % U32, e, f, g]
  | _ => st

/-- Compress one 64-byte chunk into the hash state. -/
def sha256_compress (st : List Nat) (chunk : List Nat) : List Nat :=
  let ws := sha256_schedule (chunk_words chunk)
  let fin := (List.range 64).foldl
    (fun acc i => sha256_round acc (sha256_k.getD i 0) (ws.getD i 0)) st
  List.zipWith (fun x y => (x + y) % U32) st fin

/-- SHA-256 of a byte list, as 32 digest bytes (the `sha256_hash` capability
of sha256.h). -/
def sha256_bytes (msg : List Nat) : List Nat :=
  ((chunks64 (sha256_pad msg)).foldl sha256_compress sha256_h0).foldr
    (fun w acc => be_bytes 4 w ++ acc) []

set_option maxRecDepth 100000 in
/-- FIPS 180-4 test vector: SHA-256 of the empty message. -/
theorem sha256_empty_vector :
    sha256_bytes [] =
      [0xe3, 0xb0, 0xc4, 0x42, 0x98, 0xfc, 0x1c, 0x14,
       0x9a, 0xfb, 0xf4, 0xc8, 0x99, 0x6f, 0xb9, 0x24,
       0x27, 0xae, 0x41, 0xe4, 0x64, 0x9b, 0x93, 0x4c,
       0xa4, 0x95, 0x99, 0x1b, 0x78, 0x52, 0xb8, 0x55] := by
  decide

set_option maxRecDepth 100000 in
/-- FIPS 180-4 test vector: SHA-256 of the three bytes "abc". -/
theorem sha256_abc_vector :
    sha256_bytes [0x61, 0x62, 0x63] =
      [0xba, 0x78, 0x16, 0xbf, 0x8f, 0x01, 0xcf, 0xea,
       0x41, 0x41, 0x40, 0xde, 0x5d, 0xae, 0x22, 0x23,
       0xb0, 0x03, 0x61, 0xa3, 0x96, 0x17, 0x7a, 0x9c,
       0xb4, 0x10, 0xff, 0x61, 0xf2, 0x00, 0x15, 0xad] := by
  decide

def IFR_MAGIC : Nat := 0x30465249

def IFR_FLAG_SIG_UNAVAILABLE : Nat := 0x0001

def IFR_FLAG_MODEL_DIGEST_MISSING : Nat := 0x0002

def IFR_FLAG_POLICY_DIGEST_PLACEHOLDER : Nat := 0x0004

def zeros32 : List Nat := List.replicate 32 0

/-- IFR v3 record (`ifr_record_v3_t` in ifr.h, packed, 324 bytes).
`goodput_bits` is the 32-bit pattern of the float field: `ifr_build_v3` and
the hashes only ever copy those four bytes.  Hash fields are 32-byte lists,
the signature 64 bytes. -/
structure ifr_record_v3_t where
  magic : Nat
  version : Nat
  flags : Nat
  record_size : Nat
  job_id : Nat
  episode_id : Nat
  model_id : Nat
  ts_usec : Nat
  goodput_bits : Nat
  nonce : List Nat
  model_digest : List Nat
  policy_digest : List Nat
  flightrec_seal_hash : List Nat
  prev_chain_hash : List Nat
  ifr_hash : List Nat
  chain_hash : List Nat
  sig_classical : List Nat
deriving DecidableEq

/-- The `offsetof(ifr_record_v3_t, ifr_hash) = 196` bytes hashed into
`ifr_hash`: every packed little-endian field before the `ifr_hash` member. -/
def ifr_v3_hashed_bytes (r : ifr_record_v3_t) : List Nat :=
  le_bytes 4 r.magic ++ le_bytes 2 r.version ++ le_bytes 2 r.flags ++
  le_bytes 4 r.record_size ++ le_bytes 4 r.job_id ++
  le_bytes 4 r.episode_id ++ le_bytes 4 r.model_id ++
  le_bytes 8 r.ts_usec ++ le_bytes 4 r.goodput_bits ++
  r.nonce ++ r.model_digest ++ r.policy_digest ++
  r.flightrec_seal_hash ++ r.prev_chain_hash

/-- The bytes of the C string "zenedge-policy-v1" (compute_policy_digest in
ifr.c). -/
def zenedge_policy_v1_bytes : List Nat :=
  [0x7A, 0x65, 0x6E, 0x65, 0x64, 0x67, 0x65, 0x2D, 0x70, 0x6F, 0x6C,
   0x69, 0x63, 0x79, 0x2D, 0x76, 0x31]

/-- `ifr_build_v3` (ifr.c).  The environment reads become parameters:
`ts_usec`/`cycles` from time.c feed the timestamp and nonce, `model_data` is
what `heap_get_data(model_id)` returns (`none` models a NULL pointer or
zero size, setting MODEL_DIGEST_MISSING), and `seal_hash` is the 32-byte
`flightrec_seal_hash` output.  Field-for-field in source order: zero the
record, fill the header, nonce, digests, previous chain hash and seal, hash
the first 196 bytes into `ifr_hash`, chain into `chain_hash`, then zero the
signature and set IFR_FLAG_SIG_UNAVAILABLE — this last flag update mutates
a byte inside the already-hashed region. -/
def ifr_build_v3 (prev_chain_hash : Option (List Nat))
    (job_id episode_id model_id goodput_bits : Nat)
    (ts_usec cycles : Nat) (model_data : Option (List Nat))
    (seal_hash : List Nat) : ifr_record_v3_t :=
  let nonce := sha256_bytes (le_bytes 8 ts_usec ++ le_bytes 8 cycles)
  let model_missing :=
    match model_data with
    | none => true
    | some d => d.length = 0
  let flags1 := if model_missing then IFR_FLAG_MODEL_DIGEST_MISSING else 0
  let model_digest :=
    match model_data with
    | none => zeros32
    | some d => if d.length = 0 then zeros32 else sha256_bytes d
  let flags2 := flags1 ||| IFR_FLAG_POLICY_DIGEST_PLACEHOLDER
  let policy_digest := sha256_bytes zenedge_policy_v1_bytes
  let prev :=
    match prev_chain_hash with
    | some p => p
    | none => zeros32
  let r0 : ifr_record_v3_t :=
    { magic := IFR_MAGIC, version := 3, flags := flags2, record_size := 324,
      job_id := job_id, episode_id := episode_id, model_id := model_id,
      ts_usec := ts_usec, goodput_bits := goodput_bits,
      nonce := nonce, model_digest := model_digest,
      policy_digest := policy_digest, flightrec_seal_hash := seal_hash,
      prev_chain_hash := prev, ifr_hash := zeros32, chain_hash := zeros32,
      sig_classical := List.replicate 64 0 }
  let ih := sha256_bytes (ifr_v3_hashed_bytes r0)
  let ch := sha256_bytes (prev ++ ih ++ seal_hash ++ nonce ++ model_digest ++
    policy_digest)
  { r0 with ifr_hash := ih, chain_hash := ch,
            flags := flags2 ||| IFR_FLAG_SIG_UNAVAILABLE }

/-- `ifr_verify_v3` (ifr.c): exact magic/version/record_size, then recompute
`ifr_hash` over the first 196 bytes and `chain_hash` over
prev ‖ ifr ‖ seal ‖ nonce ‖ model ‖ policy; accept iff both match. -/
def ifr_verify_v3 (r : ifr_record_v3_t) : Bool :=
  if r.magic ≠ IFR_MAGIC then false
  else if r.version ≠ 3 then false
  else if r.record_size ≠ 324 then false
  else if sha256_bytes (ifr_v3_hashed_bytes r) ≠ r.ifr_hash then false
  else if sha256_bytes (r.prev_chain_hash ++ r.ifr_hash ++
      r.flightrec_seal_hash ++ r.nonce ++ r.model_digest ++
      r.policy_digest) ≠ r.chain_hash then false
  else true

/-- A concrete built record: previous chain hash absent (all-zero), job 1,
episode 1, model blob 0 absent, goodput bit pattern 0, timestamp and cycle
counter 0, all-zero recorder seal. -/
def ifr_c3_record : ifr_record_v3_t :=
  ifr_build_v3 none 1 1 0 0 0 0 none zeros32

set_option maxRecDepth 1000000 in
/-- C3: `ifr_verify_v3` rejects the record `ifr_build_v3` just built.  The
builder computes `ifr_hash` over the 196-byte prefix while `flags` is still
6 (MODEL_DIGEST_MISSING ∣ POLICY_DIGEST_PLACEHOLDER) and only afterwards
sets IFR_FLAG_SIG_UNAVAILABLE, leaving the record with flags 7; the
verifier rehashes the prefix with flags 7 and the comparison fails. -/
theorem ifr_build_v3_fails_verify :
    ifr_verify_v3 ifr_c3_record = false ∧
    ifr_c3_record.flags = 7 ∧
    ifr_c3_record.ifr_hash =
      sha256_bytes (ifr_v3_hashed_bytes { ifr_c3_record with flags := 6 }) ∧
    sha256_bytes (ifr_v3_hashed_bytes ifr_c3_record) ≠
      ifr_c3_record.ifr_hash := by
  decide

end Zenedge
